import Mathlib

set_option maxRecDepth 2000

unseal Rat.add Rat.sub Rat.mul Rat.inv Rat.ofScientific

/-!
Verification of the InvestmentAdvisor macro-trend news engine.

The definitions below are a shallow embedding of the Python modules
`modules/news_store.py`, `modules/news_of_day.py`,
`modules/news_classifier.py` and `modules/trend_narrative.py`.
Machine floats are modelled by ℚ (all operations used by the code are
exact on the inputs considered), Python dicts of articles by a record
with optional fields (a missing key is `none`), and `datetime` values by
rational seconds since the Unix epoch.
-/

namespace InvestmentAdvisor

/-- Whitespace as stripped by Python `str.strip()` (ASCII range; the
data handled by the program contains no exotic Unicode whitespace). -/
def isPySpace (c : Char) : Bool :=
  c == ' ' || c == '\t' || c == '\n' || c == '\r' || c == '\x0b' || c == '\x0c'

/-- Python `str.strip()` on a character list. -/
def pyStripList (l : List Char) : List Char :=
  ((l.dropWhile isPySpace).reverse.dropWhile isPySpace).reverse

/-- Python `str.strip()`. -/
def pyStrip (s : String) : String := ⟨pyStripList s.data⟩

/-- Python `str.lower()` restricted to the alphabets the program's data
uses (ASCII plus the Polish diacritics appearing in the sources). -/
def pyLowerChar (c : Char) : Char :=
  if 'A' ≤ c && c ≤ 'Z' then Char.ofNat (c.toNat + 32)
  else if c == 'Ą' then 'ą' else if c == 'Ć' then 'ć'
  else if c == 'Ę' then 'ę' else if c == 'Ł' then 'ł'
  else if c == 'Ń' then 'ń' else if c == 'Ó' then 'ó'
  else if c == 'Ś' then 'ś' else if c == 'Ź' then 'ź'
  else if c == 'Ż' then 'ż' else c

/-- Python `str.lower()` on a string. -/
def pyLower (s : String) : String := ⟨s.data.map pyLowerChar⟩

/-- UTF-8 encoding of one code point (as `str.encode("utf-8")` does). -/
def utf8Char (c : Char) : List Nat :=
  let n := c.toNat
  if n < 128 then [n]
  else if n < 2048 then [192 + n / 64, 128 + n % 64]
  else if n < 65536 then [224 + n / 4096, 128 + (n / 64) % 64, 128 + n % 64]
  else [240 + n / 262144, 128 + (n / 4096) % 64, 128 + (n / 64) % 64, 128 + n % 64]

/-- UTF-8 bytes of a string. -/
def utf8 (s : String) : List Nat := (s.data.map utf8Char).flatten

/-! SHA-256 (FIPS 180-4), over byte lists, words as `Nat` mod 2^32. -/

def M32 : Nat := 4294967296

def rotr32 (n x : Nat) : Nat := ((x >>> n) ||| (x <<< (32 - n))) % M32

def bsig0 (x : Nat) : Nat := rotr32 2 x ^^^ rotr32 13 x ^^^ rotr32 22 x

def bsig1 (x : Nat) : Nat := rotr32 6 x ^^^ rotr32 11 x ^^^ rotr32 25 x

def ssig0 (x : Nat) : Nat := rotr32 7 x ^^^ rotr32 18 x ^^^ (x >>> 3)

def ssig1 (x : Nat) : Nat := rotr32 17 x ^^^ rotr32 19 x ^^^ (x >>> 10)

def shaK : List Nat :=
  [1116352408, 1899447441, 3049323471, 3921009573, 961987163,
   1508970993, 2453635748, 2870763221, 3624381080, 310598401,
   607225278, 1426881987, 1925078388, 2162078206, 2614888103,
   3248222580, 3835390401, 4022224774, 264347078, 604807628,
   770255983, 1249150122, 1555081692, 1996064986, 2554220882,
   2821834349, 2952996808, 3210313671, 3336571891, 3584528711,
   113926993, 338241895, 666307205, 773529912, 1294757372,
   1396182291, 1695183700, 1986661051, 2177026350, 2456956037,
   2730485921, 2820302411, 3259730800, 3345764771, 3516065817,
   3600352804, 4094571909, 275423344, 430227734, 506948616,
   659060556, 883997877, 958139571, 1322822218, 1537002063,
   1747873779, 1955562222, 2024104815, 2227730452, 2361852424,
   2428436474, 2756734187, 3204031479, 3329325298]

/-- Big-endian 8-byte encoding of the bit length. -/
def be64 (n : Nat) : List Nat :=
  [(n >>> 56) % 256, (n >>> 48) % 256, (n >>> 40) % 256, (n >>> 32) % 256,
   (n >>> 24) % 256, (n >>> 16) % 256, (n >>> 8) % 256, n % 256]

/-- SHA-256 padding: append 0x80, zeros to 56 mod 64, then the bit length. -/
def padMsg (msg : List Nat) : List Nat :=
  let len := msg.length
  let k := (64 - (len + 9) % 64) % 64
  msg ++ [128] ++ List.replicate k 0 ++ be64 (8 * len)

/-- Group bytes into big-endian 32-bit words. -/
def toWords : List Nat → List Nat
  | b0 :: b1 :: b2 :: b3 :: rest =>
      (b0 * 16777216 + b1 * 65536 + b2 * 256 + b3) :: toWords rest
  | _ => []

/-- Split a word list into 16-word blocks (the padded length is always a
multiple of 16 words). -/
def chunk16 : List Nat → List (List Nat)
  | w1 :: w2 :: w3 :: w4 :: w5 :: w6 :: w7 :: w8 ::
    w9 :: w10 :: w11 :: w12 :: w13 :: w14 :: w15 :: w16 :: rest =>
      [w1, w2, w3, w4, w5, w6, w7, w8, w9, w10, w11, w12, w13, w14, w15, w16]
        :: chunk16 rest
  | _ => []

/-- Extend the message schedule by `n` further words. -/
def schedExtend : Nat → List Nat → List Nat
  | 0, acc => acc
  | n + 1, acc =>
      let m := acc.length
      let w := (ssig1 (acc.getD (m - 2) 0) + acc.getD (m - 7) 0 +
                ssig0 (acc.getD (m - 15) 0) + acc.getD (m - 16) 0) % M32
      schedExtend n (acc ++ [w])

/-- The 64-word message schedule of one block. -/
def msgSchedule (block : List Nat) : List Nat := schedExtend 48 block

/-- The eight working variables of the compression function. -/
structure Hash8 where
  a : Nat
  b : Nat
  c : Nat
  d : Nat
  e : Nat
  f : Nat
  g : Nat
  h : Nat
deriving Repr, DecidableEq

/-- One round of the SHA-256 compression function. -/
def compressStep (st : Hash8) (kw : Nat × Nat) : Hash8 :=
  let ch := (st.e &&& st.f) ^^^ ((st.e ^^^ 4294967295) &&& st.g)
  let maj := (st.a &&& st.b) ^^^ (st.a &&& st.c) ^^^ (st.b &&& st.c)
  let t1 := (st.h + bsig1 st.e + ch + kw.1 + kw.2) % M32
  let t2 := (bsig0 st.a + maj) % M32
  ⟨(t1 + t2) % M32, st.a, st.b, st.c, (st.d + t1) % M32, st.e, st.f, st.g⟩

/-- Compress one 16-word block into the running hash state. -/
def compressBlock (st : Hash8) (block : List Nat) : Hash8 :=
  let ws := msgSchedule block
  let r := (shaK.zip ws).foldl compressStep st
  ⟨(st.a + r.a) % M32, (st.b + r.b) % M32, (st.c + r.c) % M32,
   (st.d + r.d) % M32, (st.e + r.e) % M32, (st.f + r.f) % M32,
   (st.g + r.g) % M32, (st.h + r.h) % M32⟩

def shaH0 : Hash8 :=
  ⟨1779033703, 3144134277, 1013904242, 2773480762,
   1359893119, 2600822924, 528734635, 1541459225⟩

/-- SHA-256 digest of a byte list, as eight 32-bit words. -/
def sha256Words (msg : List Nat) : List Nat :=
  let st := (chunk16 (toWords (padMsg msg))).foldl compressBlock shaH0
  [st.a, st.b, st.c, st.d, st.e, st.f, st.g, st.h]

def hexDigit (n : Nat) : Char :=
  if n < 10 then Char.ofNat (48 + n) else Char.ofNat (87 + n)

def word2hex (w : Nat) : List Char :=
  [hexDigit ((w >>> 28) % 16), hexDigit ((w >>> 24) % 16),
   hexDigit ((w >>> 20) % 16), hexDigit ((w >>> 16) % 16),
   hexDigit ((w >>> 12) % 16), hexDigit ((w >>> 8) % 16),
   hexDigit ((w >>> 4) % 16), hexDigit (w % 16)]

/-- Hex digest, as `hashlib.sha256(...).hexdigest()`. -/
def sha256hex (msg : List Nat) : String :=
  ⟨((sha256Words msg).map word2hex).flatten⟩

/-- `_news_hash` of `modules/news_store.py`: 16-hex-char truncated SHA-256 of
`f"{title.strip().lower()}|{source.strip().lower()}|{published_at.strip()}"`. -/
def news_hash (title source published_at : String) : String :=
  let raw := pyLower (pyStrip title) ++ "|" ++ pyLower (pyStrip source) ++ "|"
               ++ pyStrip published_at
  ⟨((sha256hex (utf8 raw)).data.take 16)⟩

/-! Articles.  A Python article dict is modelled as a record whose fields are
`Option String`: a missing dict key is `none`, `d.get(k, v)` is `Option.getD`.
The `hash` field is a plain `String` because every code path reaching
`fetch_all_windows`'s dedup loop indexes `art["hash"]` unconditionally. -/

structure Article where
  hash : String
  title : Option String := none
  description : Option String := none
  source : Option String := none
  published_at : Option String := none
  url : Option String := none
  window : Option String := none
  region : Option String := none
  topic : Option String := none
deriving DecidableEq, Repr

/-- The `WINDOWS` dict of `modules/news_store.py`, in insertion order. -/
def WINDOWS : List (String × Nat) :=
  [("24h", 1), ("72h", 3), ("7d", 7), ("30d", 30), ("90d", 90)]

/-- Stable insertion sort; `le x y` means `x` may be placed before `y`.
Python's `sorted`/`list.sort` is a stable sort, and a stable sort's output
is uniquely determined by the key order, so this embeds it faithfully. -/
def insertStable {α : Type} (le : α → α → Bool) (x : α) : List α → List α
  | [] => [x]
  | y :: ys => if le x y then x :: y :: ys else y :: insertStable le x ys

/-- Stable sort by repeated insertion (processes from the right). -/
def sortStable {α : Type} (le : α → α → Bool) : List α → List α
  | [] => []
  | x :: xs => insertStable le x (sortStable le xs)

/-- `sorted(WINDOWS.items(), key=lambda x: x[1])` — ascending lookback. -/
def sortedWindows : List (String × Nat) :=
  sortStable (fun a b => decide (a.2 ≤ b.2)) WINDOWS

/-- The dedup inner loop of `fetch_all_windows`: one pass over a window's
articles, returning the grown seen-hash set and the articles kept. -/
def dedupInto (seen : List String) : List Article → List String × List Article
  | [] => (seen, [])
  | a :: rest =>
      if a.hash ∈ seen then dedupInto seen rest
      else
        let p := dedupInto (a.hash :: seen) rest
        (p.1, a :: p.2)

/-- Projection of `dedupInto`: the articles kept. -/
def dedupGo (seen : List String) : List Article → List Article
  | [] => []
  | a :: rest =>
      if a.hash ∈ seen then dedupGo seen rest
      else a :: dedupGo (a.hash :: seen) rest

/-- Projection of `dedupInto`: the seen-hash set after the pass. -/
def seenAfter (seen : List String) : List Article → List String
  | [] => seen
  | a :: rest =>
      if a.hash ∈ seen then seenAfter seen rest
      else seenAfter (a.hash :: seen) rest

/-- The window loop of `fetch_all_windows`.  The per-window fetch is a
parameter `f` (it performs HTTP in the source); `Except.error ()` stands
for `fetch_news_window` raising `NewsAuthError`, upon which the loop
breaks and returns what was collected so far. -/
def fetchAllWindowsGo (f : String → Nat → Except Unit (List Article)) :
    List String → List (String × Nat) → List Article
  | _, [] => []
  | seen, wd :: rest =>
      match f wd.1 wd.2 with
      | Except.error _ => []
      | Except.ok arts =>
          let p := dedupInto seen arts
          p.2 ++ fetchAllWindowsGo f p.1 rest

/-- `fetch_all_windows` of `modules/news_store.py`, over an abstract
per-window fetch. -/
def fetch_all_windows (f : String → Nat → Except Unit (List Article)) :
    List Article :=
  fetchAllWindowsGo f [] sortedWindows

/-- Number of per-window fetch calls `fetch_all_windows` performs: one per
loop iteration, the loop breaking right after an auth failure. -/
def fetchCallsGo (f : String → Nat → Except Unit (List Article)) :
    List (String × Nat) → Nat
  | [] => 0
  | wd :: rest =>
      match f wd.1 wd.2 with
      | Except.error _ => 1
      | Except.ok _ => 1 + fetchCallsGo f rest

/-- Fetch-call count of a full `fetch_all_windows` run. -/
def fetchCalls (f : String → Nat → Except Unit (List Article)) : Nat :=
  fetchCallsGo f sortedWindows

/-- The hashes of a list of articles. -/
def hashesOf (l : List Article) : List String := l.map Article.hash

/-- What claim C2 asserts of `fetch_all_windows` for a given per-window
result function `g`: windows are visited in ascending lookback order, every
dedup hash appears exactly once, every fetched hash is represented, and
each surviving article comes from the first (shortest-lookback) window that
yielded its hash, tagged with that window. -/
def fetchDedupSpec (g : String → Nat → List Article) : Prop :=
  sortedWindows = [("24h", 1), ("72h", 3), ("7d", 7), ("30d", 30), ("90d", 90)] ∧
  ((fetch_all_windows (fun w d => Except.ok (g w d))).map Article.hash).Nodup ∧
  (∀ wd ∈ sortedWindows, ∀ b ∈ g wd.1 wd.2,
    ∃ a ∈ fetch_all_windows (fun w d => Except.ok (g w d)), a.hash = b.hash) ∧
  (∀ a ∈ fetch_all_windows (fun w d => Except.ok (g w d)),
    ∃ i, ∃ hi : i < sortedWindows.length,
      a ∈ g (sortedWindows.get ⟨i, hi⟩).1 (sortedWindows.get ⟨i, hi⟩).2 ∧
      a.window = some (sortedWindows.get ⟨i, hi⟩).1 ∧
      ∀ j, ∀ hj : j < sortedWindows.length, j < i →
        a.hash ∉ hashesOf (g (sortedWindows.get ⟨j, hj⟩).1
          (sortedWindows.get ⟨j, hj⟩).2))

/-- Concrete per-window fetch used to witness C2: each window yields one
article whose hash and tag are the window name. -/
def mockFetch (w : String) (_ : Nat) : List Article :=
  [{ hash := w, window := some w }]

/-! `modules/news_of_day.py`.  Python floats are modelled by ℚ: every
operation the scorer performs (+, *, /, max, min, comparisons) is exact on
the rationals involved, so ordering facts transfer.  `datetime.utcnow()`
becomes an explicit `now : ℚ` parameter (seconds since the Unix epoch). -/

/-- Is `needle` a contiguous substring of `haystack` (Python `in`)? -/
def subStrB (needle : List Char) : List Char → Bool
  | [] => needle.isEmpty
  | c :: rest => needle.isPrefixOf (c :: rest) || subStrB needle rest

/-- Python `needle in haystack` on strings. -/
def inStr (needle haystack : String) : Bool := subStrB needle.data haystack.data

/-- `SOURCE_WEIGHTS` of `modules/news_of_day.py`, in insertion order. -/
def SOURCE_WEIGHTS : List (String × ℚ) :=
  [("reuters", 10), ("bloomberg", 10), ("financial times", 9),
   ("the wall street journal", 9), ("associated press", 9), ("bbc", 8),
   ("cnbc", 8), ("the economist", 8), ("the guardian", 7),
   ("the new york times", 8), ("al jazeera", 7), ("bankier.pl", 7),
   ("pap", 7), ("money.pl", 6), ("investing.com", 6), ("marketwatch", 7),
   ("seeking alpha", 5), ("business insider", 6), ("coindesk", 5),
   ("zerohedge", 4)]

/-- The lookup loop of `_source_score`: first key that is a substring of
the name or vice versa wins; default 3. -/
def source_score_go : List (String × ℚ) → String → ℚ
  | [], _ => 3
  | (k, wt) :: rest, s => if inStr k s || inStr s k then wt else source_score_go rest s

/-- `_source_score`: case-insensitive partial match against the table. -/
def source_score (source_name : String) : ℚ :=
  source_score_go SOURCE_WEIGHTS (pyLower (pyStrip source_name))

/-! Timestamp parsing as done by `_recency_score`.  `datetime` values are
rational seconds since the Unix epoch (proleptic Gregorian).  The embedding
covers naive timestamps; an offset other than the literal `+00:00`/`Z`
(which the code strips) would make Python's later subtraction raise and is
outside the model, as are non-zero-padded `strptime` inputs. -/

/-- `published_at.replace("Z", "+00:00")`. -/
def replaceZ : List Char → List Char
  | [] => []
  | c :: rest =>
      if c == 'Z' then '+' :: '0' :: '0' :: ':' :: '0' :: '0' :: replaceZ rest
      else c :: replaceZ rest

/-- `pub.replace("+00:00", "")`, scanning left to right. -/
def strip0000 : List Char → List Char
  | '+' :: '0' :: '0' :: ':' :: '0' :: '0' :: rest => strip0000 rest
  | c :: rest => c :: strip0000 rest
  | [] => []

def isDigitCh (c : Char) : Bool := '0' ≤ c && c ≤ '9'

def digitVal (c : Char) : Nat := c.toNat - 48

/-- Gregorian leap year. -/
def isLeap (y : Nat) : Bool := (y % 4 == 0 && y % 100 != 0) || y % 400 == 0

def daysInMonth (y m : Nat) : Nat :=
  if m == 2 then (if isLeap y then 29 else 28)
  else if m == 4 || m == 6 || m == 9 || m == 11 then 30
  else 31

/-- Days in the years `1..n` that are leap years. -/
def leapsUpTo (n : Nat) : Nat := n / 4 - n / 100 + n / 400

/-- Cumulative days before month `m` in a non-leap year. -/
def cumDays (m : Nat) : Nat :=
  [0, 31, 59, 90, 120, 151, 181, 212, 243, 273, 304, 334].getD (m - 1) 0

/-- Day count of a civil date from 0001-01-01 (proleptic Gregorian). -/
def civilDays (y m d : Nat) : Nat :=
  365 * (y - 1) + leapsUpTo (y - 1) + cumDays m +
    (if 2 < m && isLeap y then 1 else 0) + (d - 1)

/-- `Nat` embedded in ℚ at the constructor level (Mathlib's `Nat.cast`
into ℚ is unary and does not evaluate in reasonable time). -/
def natQ (n : Nat) : ℚ := ⟨Int.ofNat n, 1, one_ne_zero, Nat.coprime_one_right _⟩

/-- `Int` embedded in ℚ at the constructor level. -/
def intQ (n : Int) : ℚ := ⟨n, 1, one_ne_zero, Nat.coprime_one_right _⟩

/-- Seconds since the Unix epoch of a civil datetime (frac in seconds). -/
def toEpoch (y m d hh mi ss : Nat) (frac : ℚ) : ℚ :=
  intQ ((civilDays y m d : ℤ) - 719162) * 86400 +
    natQ hh * 3600 + natQ mi * 60 + natQ ss + frac

/-- Validity of a civil date as `datetime` enforces it. -/
def validDate (y m d : Nat) : Bool :=
  1 ≤ y && 1 ≤ m && m ≤ 12 && 1 ≤ d && d ≤ daysInMonth y m

/-- Fractional-second suffix of `fromisoformat`: empty, or `.` plus exactly
3 or 6 digits. -/
def parseFrac : List Char → Option ℚ
  | [] => some 0
  | '.' :: ds =>
      if ds.length == 3 && ds.all isDigitCh then
        some (natQ (ds.foldl (fun n c => 10 * n + digitVal c) 0) / 1000)
      else if ds.length == 6 && ds.all isDigitCh then
        some (natQ (ds.foldl (fun n c => 10 * n + digitVal c) 0) / 1000000)
      else none
  | _ => none

/-- Time-of-day part `HH[:MM[:SS[.fff[fff]]]]` of `fromisoformat`,
in seconds. -/
def parseTimePart : List Char → Option ℚ
  | [h1, h2] =>
      if isDigitCh h1 && isDigitCh h2 && 10 * digitVal h1 + digitVal h2 < 24 then
        some (natQ ((10 * digitVal h1 + digitVal h2) * 3600))
      else none
  | h1 :: h2 :: ':' :: m1 :: m2 :: rest =>
      if isDigitCh h1 && isDigitCh h2 && isDigitCh m1 && isDigitCh m2 &&
          10 * digitVal h1 + digitVal h2 < 24 &&
          10 * digitVal m1 + digitVal m2 < 60 then
        let base : ℚ := natQ ((10 * digitVal h1 + digitVal h2) * 3600 +
          (10 * digitVal m1 + digitVal m2) * 60)
        match rest with
        | [] => some base
        | ':' :: s1 :: s2 :: rest2 =>
            if isDigitCh s1 && isDigitCh s2 &&
                10 * digitVal s1 + digitVal s2 < 60 then
              (parseFrac rest2).map (fun f =>
                base + natQ (10 * digitVal s1 + digitVal s2) + f)
            else none
        | _ => none
      else none
  | _ => none

/-- `datetime.fromisoformat` on a naive string:
`YYYY-MM-DD[<sep>HH[:MM[:SS[.fff[fff]]]]]`, any single separator char. -/
def fromisoformatQ : List Char → Option ℚ
  | y1 :: y2 :: y3 :: y4 :: '-' :: m1 :: m2 :: '-' :: d1 :: d2 :: rest =>
      if [y1, y2, y3, y4, m1, m2, d1, d2].all isDigitCh then
        let y := 1000 * digitVal y1 + 100 * digitVal y2 + 10 * digitVal y3 +
          digitVal y4
        let m := 10 * digitVal m1 + digitVal m2
        let d := 10 * digitVal d1 + digitVal d2
        if validDate y m d then
          match rest with
          | [] => some (toEpoch y m d 0 0 0 0)
          | _sep :: timeChars =>
              (parseTimePart timeChars).map (fun t => toEpoch y m d 0 0 0 0 + t)
        else none
      else none
  | _ => none

/-- `datetime.strptime(pub[:19], "%Y-%m-%d %H:%M:%S")` on the zero-padded
form the rest of the system produces. -/
def parseSpaceFormat : List Char → Option ℚ
  | [y1, y2, y3, y4, '-', m1, m2, '-', d1, d2, ' ',
     h1, h2, ':', mi1, mi2, ':', s1, s2] =>
      if [y1, y2, y3, y4, m1, m2, d1, d2, h1, h2, mi1, mi2, s1, s2].all
          isDigitCh then
        let y := 1000 * digitVal y1 + 100 * digitVal y2 + 10 * digitVal y3 +
          digitVal y4
        let m := 10 * digitVal m1 + digitVal m2
        let d := 10 * digitVal d1 + digitVal d2
        let hh := 10 * digitVal h1 + digitVal h2
        let mi := 10 * digitVal mi1 + digitVal mi2
        let ss := 10 * digitVal s1 + digitVal s2
        if validDate y m d && hh < 24 && mi < 60 && ss < 60 then
          some (toEpoch y m d hh mi ss 0)
        else none
      else none
  | _ => none

/-- The parse performed inside `_recency_score`'s `try` block. -/
def parsePub (published_at : String) : Option ℚ :=
  let pub := replaceZ published_at.data
  if pub.contains 'T' then fromisoformatQ (strip0000 pub)
  else parseSpaceFormat (pub.take 19)

/-- Python `max` on two rationals (kernel-reducible). -/
def maxQ (a b : ℚ) : ℚ := if a < b then b else a

/-- Python `min` on two rationals (kernel-reducible). -/
def minQ (a b : ℚ) : ℚ := if b < a then b else a

/-- `_recency_score`: linear decay 10 → 1 over 72 h; parse failure gives
2.0 (the code's "unknown date → low score" default). -/
def recency_score (now : ℚ) (published_at : String) : ℚ :=
  match parsePub published_at with
  | none => 2
  | some dt =>
      let ageHours := (now - dt) / 3600
      let age := if ageHours < 0 then 0 else ageHours
      maxQ 1 (10 - age / 72 * 9)

/-! The `_HIGH_IMPACT_RE` regex, as a tiny matcher covering exactly the
constructs the program's patterns use: case-insensitive literals, the
classes `\w` `\d` `\s` `.` with `?`/`*`, word boundaries `\b`, and
alternation tried left to right with backtracking (Python semantics). -/

inductive RScls where
  | word
  | dig
  | space
  | any
deriving DecidableEq, Repr

inductive RTok where
  | lit (c : Char)
  | one (k : RScls)
  | opt (k : RScls)
  | star (k : RScls)
  | bnd
deriving DecidableEq, Repr

/-- Polish letters occurring in the program's patterns and data. -/
def isPolishCh (c : Char) : Bool :=
  c == 'ą' || c == 'ć' || c == 'ę' || c == 'ł' || c == 'ń' || c == 'ó' ||
  c == 'ś' || c == 'ź' || c == 'ż' || c == 'Ą' || c == 'Ć' || c == 'Ę' ||
  c == 'Ł' || c == 'Ń' || c == 'Ó' || c == 'Ś' || c == 'Ź' || c == 'Ż'

/-- A `\w` character (ASCII word chars plus the Polish letters used). -/
def isWordCh (c : Char) : Bool :=
  ('a' ≤ c && c ≤ 'z') || ('A' ≤ c && c ≤ 'Z') || ('0' ≤ c && c ≤ '9') ||
  c == '_' || isPolishCh c

def clsMatch : RScls → Char → Bool
  | RScls.word, c => isWordCh c
  | RScls.dig, c => isDigitCh c
  | RScls.space, c => isPySpace c
  | RScls.any, c => c != '\n'

/-- `\b`: word-ness differs between the neighbouring characters. -/
def isBoundary (prev next : Option Char) : Bool :=
  (match prev with | some c => isWordCh c | none => false) !=
    (match next with | some c => isWordCh c | none => false)

/-- Backtracking match of a token list at the start of `s` (IGNORECASE);
returns the number of characters consumed by the first match in Python's
backtracking order.  `fuel ≥ pattern length + input length` suffices. -/
def matchLen (fuel : Nat) (p : List RTok) (prev : Option Char)
    (s : List Char) : Option Nat :=
  match fuel with
  | 0 => none
  | fl + 1 =>
      match p, s with
      | [], _ => some 0
      | RTok.bnd :: ps, _ =>
          if isBoundary prev s.head? then matchLen fl ps prev s else none
      | RTok.lit _ :: _, [] => none
      | RTok.lit c :: ps, x :: xs =>
          if pyLowerChar x == pyLowerChar c then
            (matchLen fl ps (some x) xs).map (· + 1)
          else none
      | RTok.one _ :: _, [] => none
      | RTok.one k :: ps, x :: xs =>
          if clsMatch k x then (matchLen fl ps (some x) xs).map (· + 1)
          else none
      | RTok.opt _ :: ps, [] => matchLen fl ps prev []
      | RTok.opt k :: ps, x :: xs =>
          if clsMatch k x then
            match matchLen fl ps (some x) xs with
            | some n => some (n + 1)
            | none => matchLen fl ps prev (x :: xs)
          else matchLen fl ps prev (x :: xs)
      | RTok.star _ :: ps, [] => matchLen fl ps prev []
      | RTok.star k :: ps, x :: xs =>
          if clsMatch k x then
            match matchLen fl (RTok.star k :: ps) (some x) xs with
            | some n => some (n + 1)
            | none => matchLen fl ps prev (x :: xs)
          else matchLen fl ps prev (x :: xs)

/-- Try the alternatives of a `\b(a|b|…)\b` group in order at one
position; each alternative is bracketed by the outer boundaries. -/
def matchAlts (alts : List (List RTok)) (prev : Option Char)
    (s : List Char) : Option Nat :=
  match alts with
  | [] => none
  | a :: rest =>
      match matchLen (a.length + s.length + 2) (RTok.bnd :: a ++ [RTok.bnd])
          prev s with
      | some n => some n
      | none => matchAlts rest prev s

/-- `re.findall` match count: leftmost matches, continuing after each
match's end (all the program's alternatives consume at least one char). -/
def scanCount (fuel : Nat) (alts : List (List RTok)) (prev : Option Char)
    (s : List Char) : Nat :=
  match fuel, s with
  | 0, _ => 0
  | _, [] => 0
  | fl + 1, c :: rest =>
      match matchAlts alts prev (c :: rest) with
      | some (n + 1) =>
          1 + scanCount fl alts (some ((c :: rest).getD n c))
            ((c :: rest).drop (n + 1))
      | some 0 => 1 + scanCount fl alts (some c) rest
      | none => scanCount fl alts (some c) rest

/-- Literal tokens of a plain string. -/
def lits (s : String) : List RTok := s.data.map RTok.lit

/-- The alternatives of `_HIGH_IMPACT_RE`, in source order. -/
def HIGH_IMPACT_ALTS : List (List RTok) :=
  [lits "crash", lits "recession", lits "war" ++ [RTok.bnd], lits "invasion",
   lits "default", lits "collapse", lits "emergency", lits "crisis",
   lits "rate" ++ [RTok.opt RScls.space] ++ lits "cut",
   lits "rate" ++ [RTok.opt RScls.space] ++ lits "hike",
   lits "rate" ++ [RTok.opt RScls.space] ++ lits "decision",
   lits "surprise", lits "shock",
   lits "black" ++ [RTok.opt RScls.space] ++ lits "swan",
   lits "bankrupt", lits "bail" ++ [RTok.opt RScls.any] ++ lits "out",
   lits "sanction", lits "escalat",
   lits "cease" ++ [RTok.opt RScls.any] ++ lits "fire", lits "nuclear",
   lits "pandemic", lits "shutdown", lits "tariff",
   lits "trade" ++ [RTok.opt RScls.space] ++ lits "war",
   lits "currency" ++ [RTok.opt RScls.space] ++ lits "crisis",
   lits "record" ++ [RTok.opt RScls.space] ++ lits "high",
   lits "record" ++ [RTok.opt RScls.space] ++ lits "low",
   lits "flash" ++ [RTok.opt RScls.space] ++ lits "crash",
   lits "bank" ++ [RTok.opt RScls.space] ++ lits "run",
   lits "kryzys", lits "wojna", lits "recesja", lits "krach",
   lits "upadłość", lits "sankcj"]

/-- Number of `_HIGH_IMPACT_RE.findall` matches in a text. -/
def keywordMatches (text : String) : Nat :=
  scanCount text.data.length HIGH_IMPACT_ALTS none text.data

/-- `_keyword_score`: 0 without matches, else `min(3 + count, 6)`. -/
def keyword_score (title description : String) : ℚ :=
  let m := keywordMatches (title ++ " " ++ description)
  if m == 0 then 0 else minQ (3 + natQ m) 6

/-- `TOPIC_WEIGHTS`, in insertion order. -/
def TOPIC_WEIGHTS : List (String × ℚ) :=
  [("banki centralne", 3), ("konflikt", 5/2), ("inflacja/stopy", 2),
   ("handel", 2), ("makro", 9/5), ("energia", 3/2), ("rynek pracy", 3/2),
   ("tech/AI", 6/5), ("krypto", 1), ("surowce", 1), ("nieruchomości", 4/5),
   ("inne", 1/2)]

/-- `_topic_score`: table lookup with default 0.5. -/
def topic_score (t : String) : ℚ := (TOPIC_WEIGHTS.lookup t).getD (1/2)

/-- `score_article`: the weighted composite. -/
def score_article (now : ℚ) (a : Article) : ℚ :=
  source_score (a.source.getD "") * (3/2) +
  recency_score now (a.published_at.getD "") * 1 +
  keyword_score (a.title.getD "") (a.description.getD "") * 2 +
  topic_score (a.topic.getD "inne") * (3/2)

/-- Round half-to-even to an integer (Python `round`/format rounding;
every value the scorer produces is exactly representable here). -/
def rheZ (q : ℚ) : ℤ :=
  let f := ⌊q⌋
  let r := q - intQ f
  if r < 1/2 then f else if 1/2 < r then f + 1
  else if f % 2 = 0 then f else f + 1

/-- `round(x, 2)`. -/
def round2 (q : ℚ) : ℚ := intQ (rheZ (q * 100)) / 100

/-- Decimal digits of a natural number. -/
def natDigits (n : Nat) : String := toString n

/-- Python `f"{x:.prec f}"` for the nonnegative exact rationals the
scorer formats. -/
def fmtQ (prec : Nat) (x : ℚ) : String :=
  let n := rheZ (x * natQ (10 ^ prec))
  let m := n.natAbs
  let ip := m / 10 ^ prec
  let fp := m % 10 ^ prec
  let fps := natDigits fp
  let pad : String := ⟨List.replicate (prec - fps.length) '0'⟩
  (if n < 0 then "-" else "") ++ natDigits ip ++
    (if prec == 0 then "" else "." ++ pad ++ fps)

/-- The structured result of `select_news_of_day`. -/
structure NewsOfDayResult where
  selected_news : Article
  score : ℚ
  justification : List String
  watch_signals : List String
deriving DecidableEq, Repr

/-- `_build_justification`: up to 6 bullets (always 6, then `[:6]`). -/
def build_justification (now : ℚ) (article : Article) (score : ℚ) :
    List String :=
  let src := article.source.getD "nieznane"
  let b1 := "Źródło: " ++ src ++ " (waga: " ++ fmtQ 0 (source_score src)
    ++ "/10)"
  let b2 := "Aktualność: "
    ++ fmtQ 1 (recency_score now (article.published_at.getD "")) ++ "/10"
  let kw := keyword_score (article.title.getD "") (article.description.getD "")
  let b3 := if 0 < kw then
      "Słowa kluczowe high-impact wykryte (bonus: +" ++ fmtQ 1 kw ++ ")"
    else "Brak słów kluczowych high-impact"
  let topic := article.topic.getD "inne"
  let b4 := "Temat: " ++ topic ++ " (waga: " ++ fmtQ 1 (topic_score topic)
    ++ ")"
  let b5 := "Region: " ++ article.region.getD "Świat"
  let b6 := "Łączny scoring: " ++ fmtQ 1 score
  [b1, b2, b3, b4, b5, b6].take 6

/-- The `topic_signal_map` of `_build_watch_signals`. -/
def topicSignalMap : List (String × String) :=
  [("banki centralne", "Decyzje stóp procentowych i forward guidance"),
   ("konflikt", "Eskalacja/deeskalacja i wpływ na ceny energii"),
   ("inflacja/stopy", "Odczyty CPI/PPI i reakcja rynku obligacji"),
   ("handel", "Nowe taryfy celne i retaliacja partnerów handlowych"),
   ("makro", "Dane PKB i PMI w kolejnych tygodniach"),
   ("energia", "Decyzje OPEC+ i poziomy zapasów"),
   ("rynek pracy", "Payrolls i dynamika płac"),
   ("tech/AI", "Wyniki big tech i regulacje AI"),
   ("krypto", "Regulacje i przepływy instytucjonalne"),
   ("surowce", "Popyt z Chin i poziomy zapasów")]

/-- The `region_signals` map of `_build_watch_signals`. -/
def regionSignalMap : List (String × String) :=
  [("Polska", "Decyzje RPP i kurs PLN"),
   ("Europa", "Dane ze strefy euro i polityka ECB"),
   ("Ameryka Pn.", "Dane z USA i retoryka Fed"),
   ("Azja", "Dane z Chin i polityka PBoC"),
   ("Australia", "Decyzje RBA i eksport surowców")]

/-- The "topic dominates" signal string. -/
def dominatesSignal (topic : String) (n : Nat) : String :=
  "Temat \x27" ++ topic ++ "\x27 dominuje (" ++ natDigits n
    ++ " artykułów) — nasilony trend"

/-- The "topic repeats" signal string. -/
def repeatsSignal (topic : String) (n : Nat) : String :=
  "Temat \x27" ++ topic ++ "\x27 powtarza się (" ++ natDigits n
    ++ " artykułów)"

/-- Fallback filler signal. -/
def genericSignal : String := "Ogólna zmienność i sentyment rynkowy"

/-- Number of articles whose `topic` equals the selected topic string
(`a.get("topic") == topic`; a missing key never equals a string). -/
def sameTopicCount (topic : String) (all_articles : List Article) : Nat :=
  (all_articles.filter (fun a => a.topic == some topic)).length

/-- `_build_watch_signals`. -/
def build_watch_signals (selected : Article) (all_articles : List Article) :
    List String :=
  let topic := selected.topic.getD "inne"
  let s1 : List String :=
    match topicSignalMap.lookup topic with
    | some v => [v]
    | none => []
  let s2 : List String :=
    match regionSignalMap.lookup (selected.region.getD "Świat") with
    | some v => [v]
    | none => []
  let same_topic := sameTopicCount topic all_articles
  let s3 : List String :=
    if 5 ≤ same_topic then [dominatesSignal topic same_topic]
    else if 3 ≤ same_topic then [repeatsSignal topic same_topic]
    else []
  let signals := s1 ++ s2 ++ s3
  let signals2 :=
    if signals.length < 2 then signals ++ [genericSignal] else signals
  signals2.take 5

/-- `select_news_of_day`.  `scored.sort(key=…, reverse=True)` is a stable
descending sort, embedded by the stable `sortStable`; only its head is
used. -/
def select_news_of_day (now : ℚ) (articles : List Article) :
    Option NewsOfDayResult :=
  match articles with
  | [] => none
  | _ :: _ =>
      let scored := articles.map (fun a => (score_article now a, a))
      match sortStable (fun x y => decide (y.1 ≤ x.1)) scored with
      | [] => none
      | (best_score, best) :: _ =>
          some { selected_news := best,
                 score := round2 best_score,
                 justification := build_justification now best best_score,
                 watch_signals := build_watch_signals best articles }

/-! `modules/news_classifier.py`: ordered (label, regex) rules, first
match wins, evaluated by `pattern.search` on `f"{title} {description}"`. -/

/-- `pattern.search(text) is not None`: does the alternation match at any
position? -/
def searchGo (fuel : Nat) (alts : List (List RTok)) (prev : Option Char)
    (s : List Char) : Bool :=
  match fuel, s with
  | 0, _ => false
  | _, [] => false
  | fl + 1, c :: rest =>
      (matchAlts alts prev (c :: rest)).isSome || searchGo fl alts (some c) rest

/-- Boolean regex search over a text. -/
def searchRE (alts : List (List RTok)) (text : String) : Bool :=
  searchGo text.data.length alts none text.data

/-- `_REGION_RULES`, transcribed alternative by alternative. -/
def REGION_RULES : List (String × List (List RTok)) :=
  [("Polska",
    [lits "poland", lits "polish", lits "polska", lits "warszaw", lits "gpw",
     lits "wig" ++ [RTok.star RScls.dig], lits "nbp", lits "pln",
     lits "zloty", lits "złot", lits "tusk", lits "morawiecki",
     lits "kaczyński", lits "sejm", lits "senat", lits "orlen", lits "kghm",
     lits "pekao", lits "pko" ++ [RTok.opt RScls.space] ++ lits "bp",
     lits "allegro.pl", lits "biedronka", lits "żabka", lits "gdańsk",
     lits "kraków", lits "wrocław", lits "łódź", lits "poznań",
     lits "katowice"]),
   ("Europa",
    [lits "europ" ++ [RTok.star RScls.word], lits "eu" ++ [RTok.bnd],
     lits "euro" ++ [RTok.opt RScls.space] ++ lits "zone", lits "eurozone",
     lits "ecb", lits "lagarde", lits "euro" ++ [RTok.bnd],
     lits "german" ++ [RTok.star RScls.word], lits "france", lits "french",
     lits "italy", lits "italian", lits "spain", lits "spanish",
     lits "dutch", lits "netherlands", lits "belgium",
     lits "austria" ++ [RTok.star RScls.word], lits "switzerland",
     lits "swiss", lits "sweden", lits "norway", lits "denmark",
     lits "finland", lits "portugal", lits "greece", lits "ireland",
     lits "czech", lits "hungar" ++ [RTok.star RScls.word], lits "romania",
     lits "bulgaria", lits "croatia", lits "brexit",
     lits "uk" ++ [RTok.bnd], lits "britain", lits "british", lits "london",
     lits "paris", lits "berlin", lits "frankfurt",
     lits "dax" ++ [RTok.bnd], lits "stoxx", lits "ftse",
     lits "cac" ++ [RTok.opt RScls.space] ++ lits "40", lits "bund",
     lits "gilt", lits "boe" ++ [RTok.bnd],
     lits "bank" ++ [RTok.opt RScls.space] ++ lits "of"
       ++ [RTok.opt RScls.space] ++ lits "england",
     lits "bundesbank", lits "nato" ++ [RTok.bnd]]),
   ("Ameryka Pn.",
    [lits "usa", lits "u.s.",
     lits "united" ++ [RTok.opt RScls.space] ++ lits "states",
     lits "america", lits "washington",
     lits "wall" ++ [RTok.opt RScls.space] ++ lits "street",
     lits "fed" ++ [RTok.bnd],
     lits "federal" ++ [RTok.opt RScls.space] ++ lits "reserve",
     lits "powell", lits "yellen", lits "treasury", lits "congress",
     lits "senate", lits "s&p" ++ [RTok.opt RScls.space] ++ lits "500",
     lits "nasdaq", lits "dow" ++ [RTok.opt RScls.space] ++ lits "jones",
     lits "nyse", lits "spy" ++ [RTok.bnd], lits "qqq" ++ [RTok.bnd],
     lits "silicon" ++ [RTok.opt RScls.space] ++ lits "valley",
     lits "california", lits "texas",
     lits "new" ++ [RTok.opt RScls.space] ++ lits "york", lits "chicago",
     lits "canada", lits "canadian", lits "toronto", lits "tsx",
     lits "mexico", lits "mexican", lits "peso", lits "trump", lits "biden",
     lits "white" ++ [RTok.opt RScls.space] ++ lits "house"]),
   ("Azja",
    [lits "china", lits "chinese", lits "beijing", lits "shanghai",
     lits "hong" ++ [RTok.opt RScls.space] ++ lits "kong", lits "taiwan",
     lits "taipei", lits "japan", lits "japanese", lits "tokyo",
     lits "nikkei", lits "boj" ++ [RTok.bnd], lits "yen" ++ [RTok.bnd],
     lits "abe" ++ [RTok.bnd], lits "korea", lits "korean", lits "seoul",
     lits "kospi", lits "samsung", lits "india", lits "indian",
     lits "mumbai", lits "sensex", lits "nifty", lits "rupee",
     lits "modi" ++ [RTok.bnd], lits "asean", lits "singapore",
     lits "indonesia", lits "vietnam", lits "thailand", lits "malaysia",
     lits "philippines", lits "asia", lits "asian"]),
   ("Australia",
    [lits "australia", lits "australian", lits "sydney",
     lits "asx" ++ [RTok.bnd], lits "rba" ++ [RTok.bnd],
     lits "aud" ++ [RTok.bnd],
     lits "new" ++ [RTok.opt RScls.space] ++ lits "zealand",
     lits "nzd" ++ [RTok.bnd], lits "rbnz"])]

/-- `_TOPIC_RULES`, transcribed alternative by alternative. -/
def TOPIC_RULES : List (String × List (List RTok)) :=
  [("banki centralne",
    [lits "central" ++ [RTok.opt RScls.space] ++ lits "bank",
     lits "fed" ++ [RTok.bnd],
     lits "federal" ++ [RTok.opt RScls.space] ++ lits "reserve",
     lits "ecb", lits "boe", lits "boj", lits "rba", lits "rbnz",
     lits "nbp", lits "pboc",
     lits "rate" ++ [RTok.opt RScls.space] ++ lits "decision",
     lits "interest" ++ [RTok.opt RScls.space] ++ lits "rate",
     lits "stopy" ++ [RTok.opt RScls.space] ++ lits "proc",
     lits "monetary" ++ [RTok.opt RScls.space] ++ lits "policy",
     lits "quantitative", lits "tapering", lits "hawkish", lits "dovish",
     lits "powell", lits "lagarde", lits "ueda"]),
   ("inflacja/stopy",
    [lits "inflat", lits "cpi" ++ [RTok.bnd], lits "pce" ++ [RTok.bnd],
     lits "deflat", lits "price" ++ [RTok.opt RScls.space] ++ lits "index",
     lits "consumer" ++ [RTok.opt RScls.space] ++ lits "price",
     lits "core" ++ [RTok.opt RScls.space] ++ lits "inflation",
     lits "disinflat", lits "stagflat", lits "hyperinflat", lits "yield",
     lits "bond" ++ [RTok.opt RScls.space] ++ lits "yield",
     lits "treasury" ++ [RTok.opt RScls.space] ++ lits "yield",
     lits "bund" ++ [RTok.opt RScls.space] ++ lits "yield"]),
   ("rynek pracy",
    [lits "employ", lits "unemploy", lits "jobless", lits "payroll",
     lits "non" ++ [RTok.opt RScls.any] ++ lits "farm", lits "labor",
     lits "labour", lits "hiring", lits "layoff",
     lits "job" ++ [RTok.opt RScls.space] ++ lits "market",
     lits "workforce", lits "wage", lits "salary", lits "zatrudnieni",
     lits "bezroboci",
     lits "rynek" ++ [RTok.opt RScls.space] ++ lits "pracy"]),
   ("energia",
    [lits "oil" ++ [RTok.bnd], lits "crude", lits "brent", lits "wti",
     lits "opec", lits "natural" ++ [RTok.opt RScls.space] ++ lits "gas",
     lits "lng" ++ [RTok.bnd], lits "petroleum",
     lits "energy" ++ [RTok.opt RScls.space] ++ lits "crisis",
     lits "energy" ++ [RTok.opt RScls.space] ++ lits "price",
     lits "solar", lits "wind" ++ [RTok.opt RScls.space] ++ lits "power",
     lits "nuclear", lits "coal" ++ [RTok.bnd],
     lits "ropa" ++ [RTok.bnd], lits "gaz" ++ [RTok.bnd], lits "energia"]),
   ("handel",
    [lits "trade" ++ [RTok.opt RScls.space] ++ lits "war",
     lits "tariff" ++ [RTok.star RScls.word],
     lits "sanction" ++ [RTok.star RScls.word],
     lits "embargo" ++ [RTok.star RScls.word],
     lits "import" ++ [RTok.opt RScls.space] ++ lits "dut"
       ++ [RTok.star RScls.word],
     lits "export" ++ [RTok.opt RScls.space] ++ lits "ban",
     lits "trade" ++ [RTok.opt RScls.space] ++ lits "deal",
     lits "trade" ++ [RTok.opt RScls.space] ++ lits "deficit",
     lits "trade" ++ [RTok.opt RScls.space] ++ lits "surplus",
     lits "wto" ++ [RTok.bnd], lits "nafta" ++ [RTok.bnd], lits "usmca",
     lits "supply" ++ [RTok.opt RScls.space] ++ lits "chain",
     lits "shipping", lits "port" ++ [RTok.bnd], lits "freight",
     lits "handel", lits "cło", lits "cła"]),
   ("konflikt",
    [lits "war" ++ [RTok.bnd], lits "conflict", lits "military",
     lits "invasion", lits "attack", lits "missile",
     lits "drone" ++ [RTok.opt RScls.space] ++ lits "strike",
     lits "geopoliti", lits "tension", lits "escalat",
     lits "cease" ++ [RTok.opt RScls.any] ++ lits "fire",
     lits "peace" ++ [RTok.opt RScls.space] ++ lits "talk", lits "nato",
     lits "nuclear" ++ [RTok.opt RScls.space] ++ lits "threat",
     lits "sanction", lits "ukrain", lits "russia", lits "gaza",
     lits "israel", lits "iran",
     lits "north" ++ [RTok.opt RScls.space] ++ lits "korea",
     lits "wojna", lits "konflikt"]),
   ("tech/AI",
    [lits "ai" ++ [RTok.bnd],
     lits "artificial" ++ [RTok.opt RScls.space] ++ lits "intelligen",
     lits "machine" ++ [RTok.opt RScls.space] ++ lits "learn",
     lits "deep" ++ [RTok.opt RScls.space] ++ lits "learn",
     lits "chatgpt", lits "openai",
     lits "google" ++ [RTok.opt RScls.space] ++ lits "ai",
     lits "nvidia", lits "semiconductor", lits "chip" ++ [RTok.bnd],
     lits "chips" ++ [RTok.bnd],
     lits "tech" ++ [RTok.opt RScls.space] ++ lits "stock",
     lits "big" ++ [RTok.opt RScls.space] ++ lits "tech",
     lits "apple", lits "microsoft", lits "amazon", lits "alphabet",
     lits "meta", lits "tesla", lits "startup", lits "fintech",
     lits "blockchain",
     lits "quantum" ++ [RTok.opt RScls.space] ++ lits "comput",
     lits "sztuczn", lits "technologi"]),
   ("makro",
    [lits "gdp" ++ [RTok.bnd], lits "pkb" ++ [RTok.bnd],
     lits "pmi" ++ [RTok.bnd], lits "recession", lits "growth",
     lits "economic" ++ [RTok.opt RScls.space] ++ lits "growth",
     lits "fiscal", lits "budget",
     lits "debt" ++ [RTok.opt RScls.space] ++ lits "ceiling",
     lits "sovereign" ++ [RTok.opt RScls.space] ++ lits "debt",
     lits "deficit", lits "stimulus", lits "spending", lits "austerity",
     lits "imf" ++ [RTok.bnd],
     lits "world" ++ [RTok.opt RScls.space] ++ lits "bank",
     lits "wzrost", lits "recesja",
     lits "produkcja" ++ [RTok.opt RScls.space] ++ lits "przemysłowa"]),
   ("nieruchomości",
    [lits "real" ++ [RTok.opt RScls.space] ++ lits "estate",
     lits "housing", lits "mortgage", lits "property",
     lits "home" ++ [RTok.opt RScls.space] ++ lits "price",
     lits "rent" ++ [RTok.bnd], lits "construction",
     lits "nieruchomości", lits "mieszkani"]),
   ("krypto",
    [lits "bitcoin", lits "btc" ++ [RTok.bnd], lits "ethereum",
     lits "eth" ++ [RTok.bnd], lits "crypto", lits "defi",
     lits "nft" ++ [RTok.bnd], lits "stablecoin", lits "binance",
     lits "coinbase", lits "token", lits "halving", lits "kryptowalut"]),
   ("surowce",
    [lits "gold" ++ [RTok.bnd], lits "silver" ++ [RTok.bnd],
     lits "copper", lits "platinum", lits "palladium",
     lits "iron" ++ [RTok.opt RScls.space] ++ lits "ore", lits "wheat",
     lits "corn" ++ [RTok.bnd], lits "soybean", lits "coffee",
     lits "cocoa", lits "sugar", lits "commodity", lits "commodities",
     lits "złoto", lits "srebro", lits "miedź", lits "surowc"])]

/-- First-match-wins rule evaluation with a default label. -/
def classifyGo (rules : List (String × List (List RTok))) (text : String)
    (dflt : String) : String :=
  match rules with
  | [] => dflt
  | (label, alts) :: rest =>
      if searchRE alts text then label else classifyGo rest text dflt

/-- `classify_region`. -/
def classify_region (title : String) (description : String := "") : String :=
  classifyGo REGION_RULES (title ++ " " ++ description) "Świat"

/-- `classify_topic`. -/
def classify_topic (title : String) (description : String := "") : String :=
  classifyGo TOPIC_RULES (title ++ " " ++ description) "inne"

/-- `classify_article`: sets the `region` and `topic` fields. -/
def classify_article (a : Article) : Article :=
  { a with
    region := some (classify_region (a.title.getD "") (a.description.getD "")),
    topic := some (classify_topic (a.title.getD "") (a.description.getD "")) }

/-- `classify_articles`. -/
def classify_articles (arts : List Article) : List Article :=
  arts.map classify_article

/-! `modules/trend_narrative.py`.  A `collections.Counter` is an
association list in first-encounter order; `most_common(n)` is the stable
descending sort by count (ties keep insertion order), truncated. -/

/-- `counter[k] += 1`. -/
def counterAdd (l : List (String × Nat)) (k : String) : List (String × Nat) :=
  match l with
  | [] => [(k, 1)]
  | (k0, c) :: rest =>
      if k0 == k then (k0, c + 1) :: rest else (k0, c) :: counterAdd rest k

/-- Build a counter from a list of keys, in order. -/
def counterOf (ks : List String) : List (String × Nat) :=
  ks.foldl counterAdd []

/-- `Counter.most_common(n)`. -/
def mostCommon (n : Nat) (l : List (String × Nat)) : List (String × Nat) :=
  (sortStable (fun a b => decide (b.2 ≤ a.2)) l).take n

/-- The stop-word set of `_extract_keywords` (a Python set; duplicate
entries between the English and Polish groups are harmless). -/
def stopwords : List String :=
  ["the", "a", "an", "in", "on", "at", "to", "for", "of", "and",
   "or", "is", "are", "was", "were", "be", "been", "has", "have",
   "had", "with", "from", "by", "as", "it", "its", "this", "that",
   "but", "not", "no", "will", "would", "can", "could", "may",
   "new", "says", "said", "after", "over", "into", "about",
   "than", "more", "up", "out", "also", "just", "how", "what",
   "when", "where", "who", "all", "their", "his", "her", "he",
   "she", "they", "we", "you", "i", "my", "your", "do", "does",
   "did", "if", "so", "get", "got", "one", "two",
   "w", "na", "i", "z", "do", "się", "nie", "o", "po", "za",
   "to", "ze", "od", "jest", "dla", "jak", "co", "ale"]

/-- A letter of `[a-zA-ZąćęłńóśźżĄĆĘŁŃÓŚŹŻ]`. -/
def isKwLetter (c : Char) : Bool :=
  ('a' ≤ c && c ≤ 'z') || ('A' ≤ c && c ≤ 'Z') || isPolishCh c

/-- Maximal letter prefix of a character list, and the remainder. -/
def takeRun : List Char → List Char × List Char
  | [] => ([], [])
  | c :: rest =>
      if isKwLetter c then
        let p := takeRun rest
        (c :: p.1, p.2)
      else ([], c :: rest)

/-- Maximal letter runs (`re.findall` of `[letters]{3,}` finds maximal
runs; the length filter is applied afterwards). -/
def letterRuns (fuel : Nat) : List Char → List (List Char) :=
  fun s =>
    match fuel, s with
    | 0, _ => []
    | _, [] => []
    | fl + 1, c :: rest =>
        if isKwLetter c then
          let p := takeRun rest
          (c :: p.1) :: letterRuns fl p.2
        else letterRuns fl rest

/-- The word occurrences `_extract_keywords` counts, in order. -/
def keywordWords (articles : List Article) : List String :=
  (articles.map (fun art =>
    (((letterRuns (pyLower (art.title.getD "")).data.length
        (pyLower (art.title.getD "")).data).filter
          (fun r => 3 ≤ r.length)).map (fun r => (⟨r⟩ : String))).filter
      (fun w => !stopwords.contains w))).flatten

/-- `_extract_keywords`. -/
def extract_keywords (articles : List Article) (top_n : Nat) : List String :=
  (mostCommon top_n (counterOf (keywordWords articles))).map Prod.fst

/-- A window aggregate (`_aggregate_window`'s dict). -/
structure WindowAgg where
  count : Nat
  top_regions : List (String × Nat)
  top_topics : List (String × Nat)
  top_keywords : List String
deriving DecidableEq, Repr

/-- `_aggregate_window`. -/
def aggregate_window (articles : List Article) : WindowAgg :=
  match articles with
  | [] => ⟨0, [], [], []⟩
  | _ :: _ =>
      ⟨articles.length,
       mostCommon 6 (counterOf (articles.map (fun a => a.region.getD "Świat"))),
       mostCommon 8 (counterOf (articles.map (fun a => a.topic.getD "inne"))),
       extract_keywords articles 10⟩

/-- The `details` dict of a trend diff. -/
structure TrendDetails where
  dominant_topic_24h : Option String
  dominant_topic_window : Option String
  dominant_region_24h : Option String
  dominant_region_window : Option String
  new_topics_in_24h : List String
  new_keywords : List String
  fading_keywords : List String
deriving DecidableEq, Repr

/-- A trend diff; the "brak danych" branch returns empty details
(modelled as `none`). -/
structure TrendDiff where
  window : String
  signal : String
  details : Option TrendDetails
deriving DecidableEq, Repr

/-- `max(d, key=d.get)` over a dict in insertion order: the first key of
maximal value (strictly greater replaces). -/
def firstMaxGo : String × Nat → List (String × Nat) → String
  | best, [] => best.1
  | best, (k, v) :: rest =>
      if best.2 < v then firstMaxGo (k, v) rest else firstMaxGo best rest

/-- `max(d, key=d.get) if d else None`. -/
def firstMaxKey : List (String × Nat) → Option String
  | [] => none
  | p :: rest => some (firstMaxGo p rest)

/-- The `new_topics` comprehension of `_compare_windows`. -/
def newTopicsOf (baseTopics compTopics : List (String × Nat))
    (baseCount compCount : Nat) : List String :=
  (baseTopics.filter (fun p =>
    match compTopics.lookup p.1 with
    | none => true
    | some c =>
        decide (natQ c / natQ (max compCount 1) <
          natQ p.2 / natQ (max baseCount 1) * (1/2)))).map Prod.fst

/-- `_compare_windows`.  The keyword deltas come from Python set
differences whose iteration order is unspecified; they are modelled in
first-list order (no claim depends on that order). -/
def compare_windows (baseline comparison : WindowAgg) (label : String) :
    TrendDiff :=
  if baseline.count == 0 || comparison.count == 0 then
    ⟨label, "brak danych", none⟩
  else
    let base_top_topic := firstMaxKey baseline.top_topics
    let comp_top_topic := firstMaxKey comparison.top_topics
    let base_top_region := firstMaxKey baseline.top_regions
    let comp_top_region := firstMaxKey comparison.top_regions
    let new_topics := newTopicsOf baseline.top_topics comparison.top_topics
      baseline.count comparison.count
    let signal :=
      if base_top_topic == comp_top_topic && base_top_region == comp_top_region
      then "kontynuacja"
      else if !new_topics.isEmpty then "możliwy punkt zwrotny"
      else "anomalia"
    let new_keywords := (baseline.top_keywords.filter
      (fun w => !comparison.top_keywords.contains w)).take 5
    let gone_keywords := (comparison.top_keywords.filter
      (fun w => !baseline.top_keywords.contains w)).take 5
    ⟨label, signal,
     some ⟨base_top_topic, comp_top_topic, base_top_region, comp_top_region,
           new_topics.take 5, new_keywords, gone_keywords⟩⟩

/-! Concrete inputs used by witnesses and counterexamples. -/

/-- Witness article for the selection claim. -/
def artA : Article :=
  { hash := "a", title := some "Only news", source := some "Reuters",
    published_at := some "2025-01-01T00:00:00Z", topic := some "makro",
    region := some "Świat", description := some "" }

/-- Failing input for the watch-signal count: its topic has no entry in
the topic→signal map and its region none in the region→signal map. -/
def art6 : Article :=
  { hash := "x", title := some "Regular market update",
    source := some "Some Blog", published_at := some "2025-01-01T00:00:00Z",
    topic := some "inne", region := some "Świat", description := some "" }

/-- Selected article of the repeat-signal counterexample. -/
def selC7 : Article := { hash := "a", topic := some "makro" }

/-- Input set of the repeat-signal counterexample: exactly two articles
other than the selected one share its topic. -/
def artsC7 : List Article :=
  [selC7, { hash := "b", topic := some "makro" },
   { hash := "c", topic := some "makro" }]

/-- Witness article for the self-comparison claim. -/
def artW : Article :=
  { hash := "w", title := some "Gold price up", topic := some "surowce",
    region := some "Świat" }

/-- Witness article for the classifier totality claim. -/
def artC : Article :=
  { hash := "c", title := some "Fed cuts rates",
    description := some "The Federal Reserve" }

/-- Witness article for the monotonicity claim. -/
def artM : Article :=
  { hash := "m", title := some "Markets steady", description := some "" }

/-! ############################################################
    Theorems.
    ############################################################ -/

/-- FIPS 180-4 test vector, validating the SHA-256 embedding. -/
theorem sha256_abc :
    sha256hex (utf8 "abc") =
      "ba7816bf8f01cfea414140de5dae2223b00361a396177a9cb410ff61f20015ad" := by
  decide

/-- Second validation vector: the empty message. -/
theorem sha256_empty :
    sha256hex [] =
      "e3b0c44298fc1c149afbf4c8996fb92427ae41e4649b934ca495991b7852b855" := by
  decide

/-- Claim C1, counterexample: two articles that differ only in the letter
case of `published_at` get different dedup hashes — `_news_hash` lowercases
title and source but not the timestamp. -/
theorem news_hash_case_counterexample :
    news_hash "Title" "Source" "2025-01-01T00:00:00Z" ≠
      news_hash "Title" "Source" "2025-01-01t00:00:00z" := by
  decide

/-- Claim C1, amended: the dedup hash is the first 16 hex characters of
sha256 over `lower(strip(title))|lower(strip(source))|strip(published_at)`;
consequently articles differing only in the letter case of title or source
collapse to the same hash (the timestamp's case is significant). -/
theorem news_hash_amended :
    (∀ t s p, news_hash t s p =
      ⟨(sha256hex (utf8 (pyLower (pyStrip t) ++ "|" ++ pyLower (pyStrip s)
          ++ "|" ++ pyStrip p))).data.take 16⟩) ∧
    (∀ t₁ t₂ s₁ s₂ p, pyLower (pyStrip t₁) = pyLower (pyStrip t₂) →
      pyLower (pyStrip s₁) = pyLower (pyStrip s₂) →
      news_hash t₁ s₁ p = news_hash t₂ s₂ p) := by
  constructor
  · intro t s p
    rfl
  · intro t₁ t₂ s₁ s₂ p h₁ h₂
    unfold news_hash
    rw [h₁, h₂]

/-- Witness for the amended C1 at concrete inputs. -/
theorem news_hash_amended_witness :
    news_hash "  FED Cuts Rates" "Reuters" "2025-01-01T00:00:00Z" =
      news_hash "fed cuts rates" "  reuters " "2025-01-01T00:00:00Z" :=
  news_hash_amended.2 "  FED Cuts Rates" "fed cuts rates" "Reuters"
    "  reuters " "2025-01-01T00:00:00Z" (by decide) (by decide)

/-- The dedup pass equals its two projections. -/
theorem dedupInto_eq (seen : List String) (l : List Article) :
    dedupInto seen l = (seenAfter seen l, dedupGo seen l) := by
  induction l generalizing seen with
  | nil => rfl
  | cons a rest ih =>
      simp only [dedupInto, dedupGo, seenAfter]
      by_cases h : a.hash ∈ seen <;> simp [h, ih]

/-- Articles kept by the dedup pass come from the input and their hash was
not already seen. -/
theorem mem_dedupGo {seen : List String} {l : List Article} {a : Article}
    (h : a ∈ dedupGo seen l) : a ∈ l ∧ a.hash ∉ seen := by
  induction l generalizing seen with
  | nil => simp [dedupGo] at h
  | cons b rest ih =>
      simp only [dedupGo] at h
      by_cases hb : b.hash ∈ seen
      · rw [if_pos hb] at h
        rcases ih h with ⟨h1, h2⟩
        exact ⟨List.mem_cons_of_mem _ h1, h2⟩
      · rw [if_neg hb] at h
        rcases List.mem_cons.mp h with rfl | hmem
        · exact ⟨List.mem_cons_self a rest, hb⟩
        · rcases ih hmem with ⟨h1, h2⟩
          exact ⟨List.mem_cons_of_mem _ h1,
            fun hc => h2 (List.mem_cons_of_mem _ hc)⟩

/-- The dedup pass yields pairwise distinct hashes. -/
theorem dedupGo_hashes_nodup (seen : List String) (l : List Article) :
    (hashesOf (dedupGo seen l)).Nodup := by
  induction l generalizing seen with
  | nil => simp [dedupGo, hashesOf]
  | cons b rest ih =>
      simp only [dedupGo]
      by_cases hb : b.hash ∈ seen
      · rw [if_pos hb]; exact ih seen
      · rw [if_neg hb]
        simp only [hashesOf, List.map_cons]
        refine List.nodup_cons.mpr ⟨?_, ih (b.hash :: seen)⟩
        intro hc
        rcases List.mem_map.mp hc with ⟨c, hc1, hc2⟩
        have hns := (mem_dedupGo hc1).2
        rw [hc2] at hns
        exact hns (List.mem_cons_self _ _)

/-- Every input hash either was seen already or survives the dedup pass. -/
theorem dedupGo_covers {seen : List String} {l : List Article} {b : Article}
    (h : b ∈ l) :
    b.hash ∈ seen ∨ ∃ a ∈ dedupGo seen l, a.hash = b.hash := by
  induction l generalizing seen with
  | nil => cases h
  | cons c rest ih =>
      simp only [dedupGo]
      rcases List.mem_cons.mp h with rfl | hmem
      · by_cases hb : b.hash ∈ seen
        · exact Or.inl hb
        · rw [if_neg hb]
          exact Or.inr ⟨b, List.mem_cons_self b _, rfl⟩
      · by_cases hc : c.hash ∈ seen
        · rw [if_pos hc]; exact ih hmem
        · rw [if_neg hc]
          rcases @ih (c.hash :: seen) hmem with hs | ⟨a, ha1, ha2⟩
          · rcases List.mem_cons.mp hs with heq | hs'
            · exact Or.inr ⟨c, List.mem_cons_self c _, heq.symm⟩
            · exact Or.inl hs'
          · exact Or.inr ⟨a, List.mem_cons_of_mem _ ha1, ha2⟩

/-- The dedup pass over a concatenation threads the seen set through. -/
theorem dedupGo_append (seen : List String) (l1 l2 : List Article) :
    dedupGo seen (l1 ++ l2) =
      dedupGo seen l1 ++ dedupGo (seenAfter seen l1) l2 := by
  induction l1 generalizing seen with
  | nil => simp [dedupGo, seenAfter]
  | cons a rest ih =>
      simp only [List.cons_append, dedupGo, seenAfter]
      by_cases h : a.hash ∈ seen <;> simp [h, ih]

/-- Hashes seen after a dedup pass: the old ones plus the pass's hashes. -/
theorem mem_seenAfter {seen : List String} {l : List Article} {h : String} :
    h ∈ seenAfter seen l ↔ h ∈ seen ∨ h ∈ hashesOf l := by
  induction l generalizing seen with
  | nil => simp [seenAfter, hashesOf]
  | cons a rest ih =>
      simp only [seenAfter, hashesOf, List.map_cons]
      by_cases ha : a.hash ∈ seen
      · rw [if_pos ha, ih]
        simp only [List.mem_cons]
        constructor
        · rintro (hs | hr)
          · exact Or.inl hs
          · exact Or.inr (Or.inr hr)
        · rintro (hs | heq | hr)
          · exact Or.inl hs
          · exact Or.inl (heq ▸ ha)
          · exact Or.inr hr
      · rw [if_neg ha, ih]
        simp only [List.mem_cons]
        tauto

/-- With an error-free fetch, the window loop is dedup over the
concatenation of the window results in visit order. -/
theorem fetchAllWindowsGo_ok (f : String → Nat → Except Unit (List Article))
    (g : String × Nat → List Article) (ws : List (String × Nat))
    (seen : List String) (hok : ∀ p ∈ ws, f p.1 p.2 = Except.ok (g p)) :
    fetchAllWindowsGo f seen ws = dedupGo seen ((ws.map g).flatten) := by
  induction ws generalizing seen with
  | nil => rfl
  | cons wd rest ih =>
      have hwd := hok wd (List.mem_cons_self wd rest)
      simp only [fetchAllWindowsGo, hwd, dedupInto_eq, List.map_cons,
        List.flatten_cons, dedupGo_append]
      rw [ih _ (fun p hp => hok p (List.mem_cons_of_mem _ hp))]

/-- Each article surviving dedup over concatenated window results comes
from the first window yielding its hash. -/
theorem dedupGo_flatten_owner (g : String × Nat → List Article) :
    ∀ (ws : List (String × Nat)) (seen : List String) (a : Article),
      a ∈ dedupGo seen ((ws.map g).flatten) →
      a.hash ∉ seen ∧
      ∃ i, ∃ hi : i < ws.length,
        a ∈ g (ws.get ⟨i, hi⟩) ∧
        ∀ j, ∀ hj : j < ws.length, j < i →
          a.hash ∉ hashesOf (g (ws.get ⟨j, hj⟩)) := by
  intro ws
  induction ws with
  | nil => intro seen a h; simp [dedupGo] at h
  | cons wd rest ih =>
      intro seen a h
      rw [List.map_cons, List.flatten_cons, dedupGo_append] at h
      rcases List.mem_append.mp h with h1 | h2
      · rcases mem_dedupGo h1 with ⟨hmem, hns⟩
        refine ⟨hns, 0, by simp, by simpa using hmem, ?_⟩
        intro j hj hlt
        exact absurd hlt (Nat.not_lt_zero j)
      · rcases ih _ _ h2 with ⟨hns, i, hi, hmem, hfirst⟩
        rw [mem_seenAfter] at hns
        push_neg at hns
        refine ⟨hns.1, i + 1, by simpa using Nat.succ_lt_succ hi,
          by simpa using hmem, ?_⟩
        intro j hj hlt
        cases j with
        | zero => simpa using hns.2
        | succ j' =>
            have hj' : j' < rest.length := by
              simpa using Nat.lt_of_succ_lt_succ hj
            simpa using hfirst j' hj' (Nat.lt_of_succ_lt_succ hlt)

/-- Claim C2: with error-free per-window results, `fetch_all_windows`
visits windows by ascending lookback and returns each hash exactly once,
owned (and tagged) by the shortest-lookback window that yielded it. -/
theorem fetch_all_windows_dedup :
    ∀ g : String → Nat → List Article,
      (∀ w d a, a ∈ g w d → a.window = some w) → fetchDedupSpec g := by
  intro g hwin
  have hfe : fetch_all_windows (fun w d => Except.ok (g w d)) =
      dedupGo [] ((sortedWindows.map (fun p => g p.1 p.2)).flatten) :=
    fetchAllWindowsGo_ok _ _ _ _ (fun p _ => rfl)
  refine ⟨rfl, ?_, ?_, ?_⟩
  · rw [hfe]
    simpa [hashesOf] using
      dedupGo_hashes_nodup []
        ((sortedWindows.map (fun p => g p.1 p.2)).flatten)
  · intro wd hwd b hb
    have hbf : b ∈ (sortedWindows.map (fun p => g p.1 p.2)).flatten :=
      List.mem_flatten.mpr ⟨g wd.1 wd.2,
        List.mem_map.mpr ⟨wd, hwd, rfl⟩, hb⟩
    rcases @dedupGo_covers [] _ _ hbf with h0 | ⟨a, ha, hh⟩
    · simp at h0
    · rw [hfe]
      exact ⟨a, ha, hh⟩
  · intro a ha
    rw [hfe] at ha
    rcases dedupGo_flatten_owner (fun p => g p.1 p.2) sortedWindows [] a ha
      with ⟨_, i, hi, hmem, hfirst⟩
    exact ⟨i, hi, hmem, hwin _ _ _ hmem, hfirst⟩

/-- Witness for C2 at a concrete per-window fetch. -/
theorem fetch_all_windows_dedup_witness :
    (∀ w d a, a ∈ mockFetch w d → a.window = some w) ∧ fetchDedupSpec mockFetch := by
  have hg : ∀ w d a, a ∈ mockFetch w d → a.window = some w := by
    intro w d a ha
    simp only [mockFetch, List.mem_singleton] at ha
    rw [ha]
  exact ⟨hg, fetch_all_windows_dedup mockFetch hg⟩

/-- The window loop stops right after a failing window: the result is the
dedup of the windows fetched before it, and exactly one more fetch call is
made. -/
theorem fetchGo_fail (f : String → Nat → Except Unit (List Article))
    (g : String × Nat → List Article) (w : String) (d : Nat)
    (ws2 : List (String × Nat)) :
    ∀ (ws1 : List (String × Nat)) (seen : List String),
      (∀ p ∈ ws1, f p.1 p.2 = Except.ok (g p)) →
      f w d = Except.error () →
      fetchAllWindowsGo f seen (ws1 ++ (w, d) :: ws2) =
        dedupGo seen ((ws1.map g).flatten) ∧
      fetchCallsGo f (ws1 ++ (w, d) :: ws2) = ws1.length + 1 := by
  intro ws1
  induction ws1 with
  | nil =>
      intro seen hok herr
      simp [fetchAllWindowsGo, fetchCallsGo, herr, dedupGo]
  | cons p rest ih =>
      intro seen hok herr
      have hp := hok p (List.mem_cons_self p rest)
      rcases ih (seenAfter seen (g p))
          (fun q hq => hok q (List.mem_cons_of_mem _ hq)) herr with ⟨h1, h2⟩
      constructor
      · simp only [List.cons_append, fetchAllWindowsGo, hp, dedupInto_eq,
          List.map_cons, List.flatten_cons, dedupGo_append, List.append_eq]
        rw [h1]
      · simp only [List.cons_append, fetchCallsGo, hp, List.length_cons,
          List.append_eq, h2]
        omega

/-- Claim C3: if a window's fetch raises `AuthError`, `fetch_all_windows`
makes no further fetch calls (the failing call is the last) and returns
exactly the articles collected from the windows fetched before it. -/
theorem fetch_all_windows_fail_fast
    (f : String → Nat → Except Unit (List Article))
    (g : String × Nat → List Article) (ws1 : List (String × Nat))
    (w : String) (d : Nat) (ws2 : List (String × Nat))
    (hsplit : sortedWindows = ws1 ++ (w, d) :: ws2)
    (hok : ∀ p ∈ ws1, f p.1 p.2 = Except.ok (g p))
    (herr : f w d = Except.error ()) :
    fetch_all_windows f = dedupGo [] ((ws1.map g).flatten) ∧
    fetchCalls f = ws1.length + 1 := by
  have h := fetchGo_fail f g w d ws2 ws1 [] hok herr
  unfold fetch_all_windows fetchCalls
  rw [hsplit]
  exact h

/-- Witness for C3: a fetch whose very first (shortest) window fails with
`AuthError` results in the empty list after exactly one fetch call. -/
theorem fetch_all_windows_fail_fast_witness :
    ((fun (_ : String) (_ : Nat) => (Except.error () : Except Unit (List Article)))
        "24h" 1 = Except.error ()) ∧
    fetch_all_windows (fun _ _ => Except.error ()) = [] ∧
    fetchCalls (fun _ _ => Except.error ()) = 1 := by
  have h := fetch_all_windows_fail_fast (fun _ _ => Except.error ())
      (fun _ => []) [] "24h" 1 [("72h", 3), ("7d", 7), ("30d", 30), ("90d", 90)]
      rfl (by intro p hp; cases hp) rfl
  exact ⟨rfl, by simpa using h.1, by simpa using h.2⟩

/-- Claim C8, counterexample: an unparsable timestamp scores 2.0, not the
scale's 72-hour floor of 1 — and therefore scores above a parsable
timestamp sitting exactly at the 72-hour edge. -/
theorem recency_unparsable_counterexample :
    recency_score 1735948800 "garbage" = 2 ∧
    ¬ recency_score 1735948800 "garbage" = 1 ∧
    recency_score 1735948800 "2025-01-01T00:00:00Z" = 1 ∧
    recency_score 1735948800 "2025-01-01T00:00:00Z" <
      recency_score 1735948800 "garbage" := by
  refine ⟨by decide, by decide,
    by decide, by decide⟩

/-- Claim C8, amended: for every `published_at` string the code cannot
parse, `_recency_score` does not raise and returns the fixed default
2.0 — a value above the scale's floor of 1, so an unparsable timestamp
can score above sufficiently old parsable ones. -/
theorem recency_unparsable_default (now : ℚ) (p : String)
    (h : parsePub p = none) : recency_score now p = 2 := by
  unfold recency_score
  rw [h]

/-- Witness for the amended C8. -/
theorem recency_unparsable_default_witness :
    parsePub "garbage" = none ∧ recency_score 1735948800 "garbage" = 2 :=
  ⟨by decide, recency_unparsable_default 1735948800 "garbage" (by decide)⟩

/-- Claim C9: comparing a non-empty window aggregate against an identical
copy of itself yields the signal "kontynuacja". -/
theorem compare_self_continuation (arts : List Article) (lbl : String)
    (h : arts ≠ []) :
    (compare_windows (aggregate_window arts) (aggregate_window arts)
        lbl).signal = "kontynuacja" := by
  match arts, h with
  | a :: rest, _ => simp [compare_windows, aggregate_window]

/-- Witness for C9 at a concrete aggregate. -/
theorem compare_self_continuation_witness :
    ([artW] ≠ ([] : List Article)) ∧
    (compare_windows (aggregate_window [artW]) (aggregate_window [artW])
        "7d vs 24h").signal = "kontynuacja" :=
  ⟨by simp, compare_self_continuation [artW] "7d vs 24h" (by simp)⟩

/-- The first-match-wins rule loop returns a rule label or the default. -/
theorem classifyGo_mem (rules : List (String × List (List RTok)))
    (text dflt : String) :
    classifyGo rules text dflt ∈ rules.map Prod.fst ++ [dflt] := by
  induction rules with
  | nil => simp [classifyGo]
  | cons r rest ih =>
      simp only [classifyGo, List.map_cons, List.cons_append]
      by_cases h : searchRE r.2 text
      · rw [if_pos h]
        exact List.mem_cons_self _ _
      · rw [if_neg h]
        exact List.mem_cons_of_mem _ ih

/-- Claim C10: classification is total over the fixed label sets, and
after `classify_articles` every article carries a non-empty region and a
non-empty topic from those sets. -/
theorem classification_total :
    (∀ title desc, classify_region title desc ∈
      ["Polska", "Europa", "Ameryka Pn.", "Azja", "Australia", "Świat"]) ∧
    (∀ title desc, classify_topic title desc ∈
      ["banki centralne", "inflacja/stopy", "rynek pracy", "energia",
       "handel", "konflikt", "tech/AI", "makro", "nieruchomości", "krypto",
       "surowce", "inne"]) ∧
    (∀ (arts : List Article) (a : Article), a ∈ classify_articles arts →
      ∃ r ∈ ["Polska", "Europa", "Ameryka Pn.", "Azja", "Australia", "Świat"],
        a.region = some r ∧ r ≠ "" ∧
      ∃ t ∈ ["banki centralne", "inflacja/stopy", "rynek pracy", "energia",
             "handel", "konflikt", "tech/AI", "makro", "nieruchomości",
             "krypto", "surowce", "inne"],
        a.topic = some t ∧ t ≠ "") := by
  have hr : ∀ title desc, classify_region title desc ∈
      ["Polska", "Europa", "Ameryka Pn.", "Azja", "Australia", "Świat"] := by
    intro title desc
    simpa [REGION_RULES] using
      classifyGo_mem REGION_RULES (title ++ " " ++ desc) "Świat"
  have ht : ∀ title desc, classify_topic title desc ∈
      ["banki centralne", "inflacja/stopy", "rynek pracy", "energia",
       "handel", "konflikt", "tech/AI", "makro", "nieruchomości", "krypto",
       "surowce", "inne"] := by
    intro title desc
    simpa [TOPIC_RULES] using
      classifyGo_mem TOPIC_RULES (title ++ " " ++ desc) "inne"
  refine ⟨hr, ht, ?_⟩
  intro arts a ha
  rcases List.mem_map.mp ha with ⟨b, _, rfl⟩
  refine ⟨classify_region (b.title.getD "") (b.description.getD ""),
    hr _ _, rfl, ?_,
    classify_topic (b.title.getD "") (b.description.getD ""),
    ht _ _, rfl, ?_⟩
  · have hall : ∀ x ∈ ["Polska", "Europa", "Ameryka Pn.", "Azja",
        "Australia", "Świat"], x ≠ "" := by decide
    exact hall _ (hr _ _)
  · have hall : ∀ x ∈ ["banki centralne", "inflacja/stopy", "rynek pracy",
        "energia", "handel", "konflikt", "tech/AI", "makro",
        "nieruchomości", "krypto", "surowce", "inne"], x ≠ "" := by decide
    exact hall _ (ht _ _)

/-- Witness for C10 at a concrete article. -/
theorem classification_total_witness :
    (classify_article artC ∈ classify_articles [artC]) ∧
    (∃ r ∈ ["Polska", "Europa", "Ameryka Pn.", "Azja", "Australia", "Świat"],
      (classify_article artC).region = some r ∧ r ≠ "" ∧
     ∃ t ∈ ["banki centralne", "inflacja/stopy", "rynek pracy", "energia",
            "handel", "konflikt", "tech/AI", "makro", "nieruchomości",
            "krypto", "surowce", "inne"],
      (classify_article artC).topic = some t ∧ t ≠ "") :=
  ⟨by simp [classify_articles],
   classification_total.2.2 [artC] (classify_article artC)
     (by simp [classify_articles])⟩

/-- On a successfully parsed timestamp, `_recency_score` is the clamped
linear decay. -/
theorem recency_some (now dt : ℚ) (p : String) (h : parsePub p = some dt) :
    recency_score now p =
      maxQ 1 (10 -
        (if (now - dt) / 3600 < 0 then 0 else (now - dt) / 3600) / 72 * 9) := by
  unfold recency_score
  rw [h]

/-- The clamped decay is antitone in the age. -/
theorem decay_antitone (x y : ℚ) (hxy : x ≤ y) :
    maxQ 1 (10 - (if y < 0 then 0 else y) / 72 * 9) ≤
      maxQ 1 (10 - (if x < 0 then 0 else x) / 72 * 9) := by
  have ha : (if x < 0 then 0 else x) ≤ (if y < 0 then 0 else y) := by
    by_cases cx : x < 0 <;> by_cases cy : y < 0 <;>
      simp [cx, cy] <;> linarith
  have h72 : (if x < 0 then 0 else x) / 72 ≤ (if y < 0 then 0 else y) / 72 :=
    (div_le_div_iff_of_pos_right (by norm_num : (0 : ℚ) < 72)).mpr ha
  have hv : 10 - (if y < 0 then 0 else y) / 72 * 9 ≤
      10 - (if x < 0 then 0 else x) / 72 * 9 := by
    have := mul_le_mul_of_nonneg_right h72 (by norm_num : (0 : ℚ) ≤ 9)
    linarith
  unfold maxQ
  by_cases c1 : (1 : ℚ) < 10 - (if y < 0 then 0 else y) / 72 * 9 <;>
    by_cases c2 : (1 : ℚ) < 10 - (if x < 0 then 0 else x) / 72 * 9 <;>
      simp [c1, c2] <;> linarith

/-- Claim C5: the composite score is monotone in the source weight and in
the parsed publication time, all other fields held fixed. -/
theorem score_article_monotone :
    (∀ (now : ℚ) (a : Article) (s1 s2 : String),
      source_score s2 ≤ source_score s1 →
      score_article now { a with source := some s2 } ≤
        score_article now { a with source := some s1 }) ∧
    (∀ (now : ℚ) (a : Article) (p1 p2 : String) (d1 d2 : ℚ),
      parsePub p1 = some d1 → parsePub p2 = some d2 → d2 < d1 →
      score_article now { a with published_at := some p2 } ≤
        score_article now { a with published_at := some p1 }) := by
  constructor
  · intro now a s1 s2 h
    unfold score_article
    simp only [Option.getD_some]
    have hm := mul_le_mul_of_nonneg_right h (by norm_num : (0 : ℚ) ≤ 3/2)
    linarith
  · intro now a p1 p2 d1 d2 h1 h2 hlt
    have hx : (now - d1) / 3600 ≤ (now - d2) / 3600 :=
      (div_le_div_iff_of_pos_right (by norm_num : (0 : ℚ) < 3600)).mpr
        (by linarith)
    have hr : recency_score now p2 ≤ recency_score now p1 := by
      rw [recency_some now d1 p1 h1, recency_some now d2 p2 h2]
      exact decay_antitone ((now - d1) / 3600) ((now - d2) / 3600) hx
    unfold score_article
    simp only [Option.getD_some]
    linarith

/-- Witness for C5 at concrete sources and timestamps. -/
theorem score_article_monotone_witness :
    (source_score "Random Blog" ≤ source_score "Reuters") ∧
    (score_article 1735948800 { artM with source := some "Random Blog" } ≤
      score_article 1735948800 { artM with source := some "Reuters" }) ∧
    (parsePub "2025-01-01T12:00:00Z" = some 1735732800) ∧
    (parsePub "2025-01-01T00:00:00Z" = some 1735689600) ∧
    ((1735689600 : ℚ) < 1735732800) ∧
    (score_article 1735948800
        { artM with published_at := some "2025-01-01T00:00:00Z" } ≤
      score_article 1735948800
        { artM with published_at := some "2025-01-01T12:00:00Z" }) :=
  ⟨by decide,
   score_article_monotone.1 1735948800 artM "Reuters" "Random Blog"
     (by decide),
   by decide, by decide,
   by decide,
   score_article_monotone.2 1735948800 artM "2025-01-01T12:00:00Z"
     "2025-01-01T00:00:00Z" 1735732800 1735689600
     (by decide) (by decide)
     (by decide)⟩

/-- Splitting a mapped list around a distinguished element. -/
theorem map_split {α β : Type} (f : α → β) :
    ∀ {l : List α} {s1 s2 : List β} {b : β}, l.map f = s1 ++ b :: s2 →
      ∃ m1 a m2, l = m1 ++ a :: m2 ∧ m1.map f = s1 ∧ f a = b ∧
        m2.map f = s2 := by
  intro l s1
  induction s1 generalizing l with
  | nil =>
      intro s2 b h
      cases l with
      | nil => simp at h
      | cons x xs =>
          simp only [List.map_cons, List.nil_append, List.cons.injEq] at h
          exact ⟨[], x, xs, rfl, rfl, h.1, h.2⟩
  | cons y ys ih =>
      intro s2 b h
      cases l with
      | nil => simp at h
      | cons x xs =>
          simp only [List.map_cons, List.cons_append, List.cons.injEq] at h
          rcases ih h.2 with ⟨m1, a, m2, hsp, hm1, hfa, hm2⟩
          exact ⟨x :: m1, a, m2, by simp [hsp], by simp [hm1, h.1], hfa, hm2⟩

/-- The head of the stable descending sort is the first score maximum:
it beats every earlier element strictly and every element weakly. -/
theorem sortStable_desc_head :
    ∀ l : List (ℚ × Article), l ≠ [] →
      ∃ q s', sortStable (fun x y => decide (y.1 ≤ x.1)) l = q :: s' ∧
        (∃ l1 l2, l = l1 ++ q :: l2 ∧ ∀ p ∈ l1, p.1 < q.1) ∧
        (∀ p ∈ l, p.1 ≤ q.1) := by
  intro l
  induction l with
  | nil => intro h; exact absurd rfl h
  | cons x xs ih =>
      intro _
      cases xs with
      | nil =>
          refine ⟨x, [], rfl, ⟨[], [], rfl, by simp⟩, ?_⟩
          intro p hp
          rcases List.mem_singleton.mp hp with rfl
          exact le_rfl
      | cons y ys =>
          rcases ih (by simp) with ⟨q, s', hs, ⟨l1, l2, hsplit, hlt⟩, hle⟩
          by_cases hxq : q.1 ≤ x.1
          · refine ⟨x, q :: s', ?_, ⟨[], y :: ys, rfl, by simp⟩, ?_⟩
            · rw [show sortStable (fun x y => decide (y.1 ≤ x.1))
                    (x :: y :: ys) =
                  insertStable (fun x y => decide (y.1 ≤ x.1)) x
                    (sortStable (fun x y => decide (y.1 ≤ x.1)) (y :: ys))
                  from rfl, hs]
              simp [insertStable, hxq]
            · intro p hp
              rcases List.mem_cons.mp hp with rfl | hp'
              · exact le_rfl
              · exact le_trans (hle p hp') hxq
          · push_neg at hxq
            have hc : ¬ (q.1 ≤ x.1) := not_le.mpr hxq
            refine ⟨q, insertStable (fun x y => decide (y.1 ≤ x.1)) x s',
              ?_, ⟨x :: l1, l2, ?_, ?_⟩, ?_⟩
            · rw [show sortStable (fun x y => decide (y.1 ≤ x.1))
                    (x :: y :: ys) =
                  insertStable (fun x y => decide (y.1 ≤ x.1)) x
                    (sortStable (fun x y => decide (y.1 ≤ x.1)) (y :: ys))
                  from rfl, hs]
              simp [insertStable, hc]
            · rw [List.cons_append, ← hsplit]
            · intro p hp
              rcases List.mem_cons.mp hp with rfl | hp'
              · exact hxq
              · exact hlt p hp'
            · intro p hp
              rcases List.mem_cons.mp hp with rfl | hp'
              · exact le_of_lt hxq
              · exact hle p hp'

/-- Claim C4: `select_news_of_day` returns nothing on the empty list; on a
non-empty list it selects a maximum-score article, ties resolved to the
earliest occurrence; a singleton selects its only element. -/
theorem select_news_of_day_spec (now : ℚ) :
    select_news_of_day now [] = none ∧
    (∀ arts : List Article, arts ≠ [] →
      ∃ r, select_news_of_day now arts = some r ∧
        (∃ l1 l2, arts = l1 ++ r.selected_news :: l2 ∧
          ∀ b ∈ l1,
            score_article now b < score_article now r.selected_news) ∧
        (∀ b ∈ arts,
          score_article now b ≤ score_article now r.selected_news)) ∧
    (∀ x : Article,
      (select_news_of_day now [x]).map (fun r => r.selected_news) = some x) := by
  refine ⟨rfl, ?_, ?_⟩
  · intro arts hne
    cases arts with
    | nil => exact absurd rfl hne
    | cons a0 rest =>
        rcases sortStable_desc_head
            ((a0 :: rest).map (fun a => (score_article now a, a)))
            (by simp) with ⟨q, s', hs, ⟨l1, l2, hsplit, hlt⟩, hle⟩
        obtain ⟨bs, best⟩ := q
        rcases map_split _ hsplit with ⟨m1, ab, m2, hl, hm1, hfab, hm2⟩
        have hab : ab = best := congrArg Prod.snd hfab
        have hsc : score_article now best = bs := by
          have := congrArg Prod.fst hfab
          simpa [hab] using this
        refine ⟨{ selected_news := best, score := round2 bs,
                  justification := build_justification now best bs,
                  watch_signals := build_watch_signals best (a0 :: rest) },
          ?_, ⟨m1, m2, ?_, ?_⟩, ?_⟩
        · simp only [select_news_of_day, hs]
        · rw [hl, hab]
        · intro b hb
          have hmem : (score_article now b, b) ∈ l1 := by
            rw [← hm1]
            exact List.mem_map_of_mem _ hb
          have h3 : score_article now b < bs := by simpa using hlt _ hmem
          simpa [hsc] using h3
        · intro b hb
          have hmem : (score_article now b, b) ∈
              (a0 :: rest).map (fun a => (score_article now a, a)) :=
            List.mem_map_of_mem _ hb
          have h3 : score_article now b ≤ bs := by simpa using hle _ hmem
          simpa [hsc] using h3
  · intro x
    rfl

/-- Witness for C4: the selection property at a concrete two-article
list, the higher-scoring article second. -/
theorem select_news_of_day_spec_witness :
    ([art6, artA] ≠ ([] : List Article)) ∧
    (∃ r, select_news_of_day 1735689600 [art6, artA] = some r ∧
      (∃ l1 l2, [art6, artA] = l1 ++ r.selected_news :: l2 ∧
        ∀ b ∈ l1, score_article 1735689600 b <
          score_article 1735689600 r.selected_news) ∧
      (∀ b ∈ [art6, artA], score_article 1735689600 b ≤
        score_article 1735689600 r.selected_news)) :=
  ⟨by simp, (select_news_of_day_spec 1735689600).2.1 [art6, artA] (by simp)⟩

/-- Claim C6 (code bug): on this single-article input — topic "inne",
region "Świat" — the result of `select_news_of_day` carries exactly ONE
watch signal, below the documented lower bound of 2. -/
theorem watch_signals_below_documented_minimum :
    (select_news_of_day 1735689600 [art6]).map
      (fun r => r.watch_signals.length) = some 1 := by
  decide

/-- Claim C7, counterexample: only two articles other than the selected
one share its topic, yet the "powtarza się" watch signal is emitted (the
count includes the selected article itself). -/
theorem repeats_signal_counterexample :
    ((artsC7.filter
        (fun x => !(x == selC7) && x.topic == selC7.topic)).length = 2) ∧
    repeatsSignal "makro" 3 ∈ build_watch_signals selC7 artsC7 := by
  exact ⟨by decide, by decide⟩

/-- A successful association-list lookup returns one of the values. -/
theorem lookup_mem_values {l : List (String × String)} {k v : String}
    (h : l.lookup k = some v) : v ∈ l.map Prod.snd := by
  induction l with
  | nil => simp [List.lookup] at h
  | cons p rest ih =>
      match p with
      | (k0, v0) =>
          simp only [List.lookup] at h
          cases hkk : (k == k0) with
          | false =>
              rw [hkk] at h
              exact List.mem_cons_of_mem _ (ih h)
          | true =>
              rw [hkk] at h
              simp only [Option.some.injEq] at h
              rw [List.map_cons]
              exact h ▸ List.mem_cons_self _ _

/-- The repeat signal starts with the letter T. -/
theorem repeatsSignal_head (t : String) (n : Nat) :
    (repeatsSignal t n).data.head? = some 'T' := rfl

/-- The repeat and dominate signals differ (their fixed parts have
different lengths). -/
theorem repeats_ne_dominates (t : String) (n : Nat) :
    repeatsSignal t n ≠ dominatesSignal t n := by
  intro h
  have hlen := congrArg (fun s => s.data.length) h
  simp only [repeatsSignal, dominatesSignal, String.data_append,
    List.length_append, List.length_cons, List.length_nil] at hlen
  omega

/-- No topic-map signal value is the repeat signal. -/
theorem topic_values_ne_repeats {t0 : String} {v : String} (tt : String)
    (n : Nat) (h : topicSignalMap.lookup t0 = some v) :
    v ≠ repeatsSignal tt n := by
  intro heq
  have hmem := lookup_mem_values h
  have hhead : ∀ x ∈ topicSignalMap.map Prod.snd,
      x.data.head? ≠ some 'T' := by decide
  exact hhead v hmem (heq ▸ repeatsSignal_head tt n)

/-- No region-map signal value is the repeat signal. -/
theorem region_values_ne_repeats {r0 : String} {v : String} (tt : String)
    (n : Nat) (h : regionSignalMap.lookup r0 = some v) :
    v ≠ repeatsSignal tt n := by
  intro heq
  have hmem := lookup_mem_values h
  have hhead : ∀ x ∈ regionSignalMap.map Prod.snd,
      x.data.head? ≠ some 'T' := by decide
  exact hhead v hmem (heq ▸ repeatsSignal_head tt n)

/-- The filler signal is not the repeat signal. -/
theorem generic_ne_repeats (tt : String) (n : Nat) :
    genericSignal ≠ repeatsSignal tt n := by
  intro heq
  have := heq ▸ repeatsSignal_head tt n
  exact absurd this (by decide)

/-- Core of the amended C7: membership of the repeat signal in the
signal-assembly expression, for any prefix of non-repeat signals. -/
theorem mem_watch_core (pre : List String) (t : String) (n : Nat)
    (hpre : ∀ x ∈ pre, x ≠ repeatsSignal t n) (hlen : pre.length ≤ 2) :
    (repeatsSignal t n ∈
      (if (pre ++ (if 5 ≤ n then [dominatesSignal t n]
            else if 3 ≤ n then [repeatsSignal t n] else [])).length < 2
        then (pre ++ (if 5 ≤ n then [dominatesSignal t n]
            else if 3 ≤ n then [repeatsSignal t n] else []))
          ++ [genericSignal]
        else pre ++ (if 5 ≤ n then [dominatesSignal t n]
            else if 3 ≤ n then [repeatsSignal t n] else [])).take 5) ↔
    (3 ≤ n ∧ n < 5) := by
  by_cases h5 : 5 ≤ n
  · rw [if_pos h5]
    have hnot : repeatsSignal t n ∉
        (pre ++ [dominatesSignal t n]) ++ [genericSignal] := by
      intro hmem
      rcases List.mem_append.mp hmem with hmem1 | hmem2
      · rcases List.mem_append.mp hmem1 with hp | hd
        · exact hpre _ hp rfl
        · exact repeats_ne_dominates t n (List.mem_singleton.mp hd)
      · exact generic_ne_repeats t n (List.mem_singleton.mp hmem2).symm
    constructor
    · intro hmem
      exfalso
      apply hnot
      have hm2 := List.take_subset 5 _ hmem
      by_cases hc : (pre ++ [dominatesSignal t n]).length < 2
      · rwa [if_pos hc] at hm2
      · rw [if_neg hc] at hm2
        exact List.mem_append.mpr (Or.inl hm2)
    · rintro ⟨_, hlt5⟩
      omega
  · by_cases h3 : 3 ≤ n
    · rw [if_neg h5, if_pos h3]
      have hlen2 : (if (pre ++ [repeatsSignal t n]).length < 2
          then (pre ++ [repeatsSignal t n]) ++ [genericSignal]
          else pre ++ [repeatsSignal t n]).length ≤ 5 := by
        by_cases hc : (pre ++ [repeatsSignal t n]).length < 2
        · rw [if_pos hc]
          simp only [List.length_append, List.length_cons, List.length_nil]
          omega
        · rw [if_neg hc]
          simp only [List.length_append, List.length_cons, List.length_nil]
          omega
      rw [List.take_of_length_le hlen2]
      constructor
      · intro _
        exact ⟨h3, by omega⟩
      · intro _
        by_cases hc : (pre ++ [repeatsSignal t n]).length < 2
        · rw [if_pos hc]
          exact List.mem_append.mpr (Or.inl
            (List.mem_append.mpr (Or.inr (List.mem_singleton.mpr rfl))))
        · rw [if_neg hc]
          exact List.mem_append.mpr (Or.inr (List.mem_singleton.mpr rfl))
    · rw [if_neg h5, if_neg h3]
      constructor
      · intro hmem
        exfalso
        have hm2 := List.take_subset 5 _ hmem
        by_cases hc : (pre ++ ([] : List String)).length < 2
        · rw [if_pos hc] at hm2
          rcases List.mem_append.mp hm2 with hp | hg
          · rcases List.mem_append.mp hp with hp' | hnil
            · exact hpre _ hp' rfl
            · exact absurd hnil (List.not_mem_nil _)
          · exact generic_ne_repeats t n (List.mem_singleton.mp hg).symm
        · rw [if_neg hc] at hm2
          rcases List.mem_append.mp hm2 with hp' | hnil
          · exact hpre _ hp' rfl
          · exact absurd hnil (List.not_mem_nil _)
      · rintro ⟨hge, _⟩
        exact absurd hge h3

/-- Claim C7, amended: the "powtarza się" signal appears in the watch
signals exactly when the number of articles whose topic equals the
selected topic — the selected article counting itself when tagged — is at
least 3 and at most 4; at 5 or more the "dominuje" signal replaces it. -/
theorem repeats_signal_amended (sel : Article) (arts : List Article) :
    repeatsSignal (sel.topic.getD "inne")
        (sameTopicCount (sel.topic.getD "inne") arts) ∈
      build_watch_signals sel arts ↔
    (3 ≤ sameTopicCount (sel.topic.getD "inne") arts ∧
      sameTopicCount (sel.topic.getD "inne") arts < 5) := by
  unfold build_watch_signals
  rcases hl1 : topicSignalMap.lookup (sel.topic.getD "inne") with _ | v1 <;>
    rcases hl2 : regionSignalMap.lookup (sel.region.getD "Świat") with _ | v2 <;>
      simp only [hl1, hl2]
  · exact mem_watch_core [] _ _ (by intro x hx; cases hx) (by simp)
  · refine mem_watch_core [v2] _ _ ?_ (by simp)
    intro x hx
    rw [List.mem_singleton.mp hx]
    exact region_values_ne_repeats _ _ hl2
  · refine mem_watch_core [v1] _ _ ?_ (by simp)
    intro x hx
    rw [List.mem_singleton.mp hx]
    exact topic_values_ne_repeats _ _ hl1
  · refine mem_watch_core [v1, v2] _ _ ?_ (by simp)
    intro x hx
    rcases List.mem_cons.mp hx with rfl | hx'
    · exact topic_values_ne_repeats _ _ hl1
    · rw [List.mem_singleton.mp hx']
      exact region_values_ne_repeats _ _ hl2

/-- Witness for the amended C7: with the selected article and two others
sharing the topic, the count is 3 and the repeat signal is present. -/
theorem repeats_signal_amended_witness :
    repeatsSignal (selC7.topic.getD "inne")
        (sameTopicCount (selC7.topic.getD "inne") artsC7) ∈
      build_watch_signals selC7 artsC7 :=
  (repeats_signal_amended selC7 artsC7).mpr (by decide)

end InvestmentAdvisor
